import Mathlib

/-!
Verification development for the Starlight repository: a shallow embedding of
the rate-limited, cached request-authorization pipeline (rate-limit middleware,
Redis-backed cache clients, token validation, auth dependency resolver,
registration/login endpoints, logging middleware and top-level error handler),
with theorems settling the specification claims about these components.
-/

namespace Starlight

/-! ## Redis store model

The backing Redis store is modelled as an association list from keys to a typed
value (string-typed or set-typed, mirroring the two Redis data types the code
uses) together with a remaining time-to-live in seconds.  Serialization
(`json.dumps` in `redis.py`, JSON/pickle in `advanced_cache.py`) is a bijection
between the stored byte strings and the value domain the callers use (JSON
integers written by the rate limiter, opaque payloads written by the cache
manager), so the store is modelled as holding the decoded values directly. -/

/-- Values that pass through the caches in the verified flows: JSON integers
(the rate-limit counters) and strings (opaque cached payloads). -/
inductive PyVal where
  | vint (n : Nat)
  | vstr (s : String)
deriving DecidableEq, Repr

/-- A Redis value: either a string-typed entry (written by `SETEX`) or a
set-typed entry (written by `SADD`).  Operations applied to a key of the wrong
type raise a `WRONGTYPE` error in Redis, modelled by `Except Unit`. -/
inductive RVal where
  | str (v : PyVal)
  | sset (ms : List String)
deriving DecidableEq, Repr

/-- The Redis keyspace: key, value, remaining TTL in seconds. -/
structure RedisState where
  entries : List (String × RVal × Nat)
deriving DecidableEq, Repr

namespace RedisState

def lookup (s : RedisState) (k : String) : Option (RVal × Nat) :=
  (s.entries.find? (fun e => e.1 == k)).map (fun e => e.2)

/-- Write a key (value and TTL), replacing any previous entry (`SETEX`). -/
def setEntry (s : RedisState) (k : String) (v : RVal) (ttl : Nat) : RedisState :=
  ⟨(k, v, ttl) :: s.entries.filter (fun e => e.1 != k)⟩

/-- Delete a single key; report whether it existed (one argument of `DEL`). -/
def delOne (s : RedisState) (k : String) : Bool × RedisState :=
  match s.lookup k with
  | some _ => (true, ⟨s.entries.filter (fun e => e.1 != k)⟩)
  | none => (false, s)

/-- `DEL k1 ... kn`: delete the keys left to right, returning how many existed. -/
def delKeys (s : RedisState) : List String → Nat × RedisState
  | [] => (0, s)
  | k :: ks =>
    let r := s.delOne k
    let r2 := delKeys r.2 ks
    ((if r.1 then 1 else 0) + r2.1, r2.2)

/-- `SADD key member`: add a member to a set-typed key, creating it when
absent (a fresh set key has no TTL; Redis reports -1, modelled as TTL 0 until
an `EXPIRE` follows).  On a string-typed key Redis raises `WRONGTYPE`. -/
def sadd (s : RedisState) (k m : String) : Except Unit RedisState :=
  match s.lookup k with
  | some (.str _, _) => .error ()
  | some (.sset ms, t) =>
    .ok (s.setEntry k (.sset (if m ∈ ms then ms else ms ++ [m])) t)
  | none => .ok (s.setEntry k (.sset [m]) 0)

/-- `EXPIRE key ttl`: reset the key's TTL to exactly `ttl`; false when the key
does not exist. -/
def expire (s : RedisState) (k : String) (ttl : Nat) : Bool × RedisState :=
  match s.lookup k with
  | some (v, _) => (true, s.setEntry k v ttl)
  | none => (false, s)

/-- `SMEMBERS key`: members of a set-typed key, `[]` when absent, `WRONGTYPE`
on a string-typed key. -/
def smembers (s : RedisState) (k : String) : Except Unit (List String) :=
  match s.lookup k with
  | some (.str _, _) => .error ()
  | some (.sset ms, _) => .ok ms
  | none => .ok []

end RedisState

/-! ## `RedisCache` (`app/core/cache/redis.py`)

The client used by the rate limiter.  `reach : Bool` models whether the
backing store is connected and healthy: when false, `self.redis` is unset or
every awaited command raises, which the methods catch (or short-circuit on
`if not self.redis`) and degrade exactly as in the source. -/

namespace RedisCache

/-- `RedisCache.get`: returns the JSON-decoded value, `None` on a miss, and
`None` when the client is unset or the command errors (including the
`WRONGTYPE` error on a set-typed key, swallowed by the `except` clause).
A Redis `GET` does not change the store. -/
def get (reach : Bool) (s : RedisState) (key : String) : Option PyVal :=
  if reach then
    match s.lookup key with
    | some (.str v, _) => some v
    | some (.sset _, _) => none
    | none => none
  else none

/-- `RedisCache.set`: `SETEX key expire_time value` where
`expire_time = expire or settings.redis_cache_ttl` (Python `or`: an absent or
zero `expire` falls back to the configured default).  Returns false, leaving
the store unchanged, when the client is unset or the command errors. -/
def set (reach : Bool) (s : RedisState) (key : String) (value : PyVal)
    (expire : Option Nat) (redis_cache_ttl : Nat) : Bool × RedisState :=
  if reach then
    let expire_time := match expire with
      | some e => if e = 0 then redis_cache_ttl else e
      | none => redis_cache_ttl
    (true, s.setEntry key (.str value) expire_time)
  else (false, s)

end RedisCache

/-! ## Rate-limit middleware (`app/api/middleware/rate_limit.py`) -/

/-- A `fastapi.HTTPException`: status, detail and extra headers. -/
structure HTTPError where
  status_code : Nat
  detail : String
  headers : List (String × String)
deriving DecidableEq, Repr

/-- A response as far as the middleware chain observes it: status code,
headers and a body modelled as the JSON content's key/value pairs. -/
structure Resp where
  status_code : Nat
  headers : List (String × String)
  body : List (String × String)
deriving DecidableEq, Repr

/-- The `HTTPException` raised when the limit is exceeded (status 429,
`Retry-After: 60`). -/
def rateLimitError : HTTPError :=
  ⟨429, "Rate limit exceeded. Please try again later.", [("Retry-After", "60")]⟩

/-- The rate-limit key `rate_limit:{client_ip}:{current_minute}`. -/
def rateLimitKey (client_ip : String) (current_minute : Nat) : String :=
  "rate_limit:" ++ client_ip ++ ":" ++ toString current_minute

/-- The three `X-RateLimit-*` headers appended to an admitted response. -/
def rateLimitHeaders (limit current_requests current_minute : Nat) :
    List (String × String) :=
  [("X-RateLimit-Limit", toString limit),
   ("X-RateLimit-Remaining", toString (limit - (current_requests + 1))),
   ("X-RateLimit-Reset", toString ((current_minute + 1) * 60))]

/-- `RateLimitMiddleware.dispatch`.  Exempted paths return immediately.
Otherwise the counter is read (`cache.get(...) or 0`: a miss, a read error or
a falsy value counts as 0); at or above `settings.rate_limit_per_minute` the
429 `HTTPException` is raised (re-raised by the `except HTTPException` arm)
with no write; below it the counter is written back incremented with a
60-second expiry and the inner response is returned annotated.  A non-empty
string stored at the key makes the Python comparison raise `TypeError`, which
the generic `except` arm converts into admitting the request unannotated
(fail open).  `call_next` is a deterministic inner handler response. -/
def dispatch (limit : Nat) (client_ip path : String) (current_minute : Nat)
    (reach : Bool) (s : RedisState) (call_next : Resp)
    (redis_cache_ttl : Nat) : Except HTTPError Resp × RedisState :=
  if path = "/health" ∨ path = "/" then (.ok call_next, s)
  else
    let key := rateLimitKey client_ip current_minute
    match RedisCache.get reach s key with
    | some (.vstr str) =>
      if str = "" then
        -- Python: `"" or 0` is 0 → proceed with a zero count.
        if 0 ≥ limit then (.error rateLimitError, s)
        else
          let r := RedisCache.set reach s key (.vint 1) (some 60) redis_cache_ttl
          (.ok { call_next with
                  headers := call_next.headers ++ rateLimitHeaders limit 0 current_minute },
           r.2)
      else
        -- `str >= int` raises TypeError → generic except arm → fail open.
        (.ok call_next, s)
    | v =>
      let current_requests := match v with
        | some (.vint n) => n
        | _ => 0
      if current_requests ≥ limit then (.error rateLimitError, s)
      else
        let r := RedisCache.set reach s key (.vint (current_requests + 1))
          (some 60) redis_cache_ttl
        (.ok { call_next with
                headers := call_next.headers ++
                  rateLimitHeaders limit current_requests current_minute },
         r.2)

/-- The store after `n` sequential requests through the limiter (same client,
same minute bucket, deterministic inner handler). -/
def stateAfterRun (limit : Nat) (client_ip path : String) (current_minute : Nat)
    (reach : Bool) (call_next : Resp) (redis_cache_ttl : Nat) :
    Nat → RedisState → RedisState
  | 0, s => s
  | n + 1, s =>
    (dispatch limit client_ip path current_minute reach
      (stateAfterRun limit client_ip path current_minute reach call_next
        redis_cache_ttl n s) call_next redis_cache_ttl).2

/-- The integer counter currently stored at a key (0 when absent or not an
integer). -/
def counterValue (s : RedisState) (k : String) : Nat :=
  match s.lookup k with
  | some (.str (.vint n), _) => n
  | _ => 0

/-- Sample inner response used by concrete witnesses. -/
def sampleResp : Resp := ⟨200, [], []⟩

/-! ## `AdvancedCacheManager` (`app/core/cache/advanced_cache.py`)

The tag-aware cache manager over the same Redis store model.  `reach : Bool`
again models backend health: when false every awaited Redis command raises
and the surrounding `try/except` degrades the operation.  Serialization
(`_serialize`/`_deserialize`, a JSON-or-pickle round trip on the stored
bytes) is modelled as the identity on the decoded value domain `PyVal`. -/

namespace AdvancedCacheManager

/-- The constructor default `default_ttl=3600`. -/
def default_ttl : Nat := 3600

/-- `_generate_key`: namespace prefix for data keys. -/
def generate_key (key : String) : String := "starlight:cache:" ++ key

/-- The tag key `f"tag:{tag}"` used by `_set_tags` and `invalidate_by_tag`. -/
def tagKey (tag : String) : String := "tag:" ++ tag

/-- The effective TTL `ttl = ttl or self.default_ttl` (Python `or`: both an
omitted and a zero TTL fall back to the default). -/
def effTtl (ttl : Option Nat) : Nat :=
  match ttl with
  | some t => if t = 0 then default_ttl else t
  | none => default_ttl

/-- `AdvancedCacheManager.get`: the deserialized value on a hit, `default` on
a miss, and `default` when the backend errors (unreachable, or `WRONGTYPE` on
a set-typed key) — the `except` arm logs and returns `default`. -/
def get (reach : Bool) (s : RedisState) (key : String) (default : Option PyVal) :
    Option PyVal :=
  if reach then
    match s.lookup (generate_key key) with
    | some (.str v, _) => some v
    | some (.sset _, _) => default
    | none => default
  else default

/-- `_set_tags`: for each tag, `SADD tag_key cache_key` then
`EXPIRE tag_key ttl`.  The boolean records whether the loop ran to completion;
a `WRONGTYPE` error from `SADD` propagates to `set`'s `except` arm, keeping
the effects already performed. -/
def set_tags (s : RedisState) (cache_key : String) (tags : List String)
    (ttl : Nat) : Bool × RedisState :=
  match tags with
  | [] => (true, s)
  | tag :: rest =>
    match s.sadd (tagKey tag) cache_key with
    | .error _ => (false, s)
    | .ok s1 => set_tags (s1.expire (tagKey tag) ttl).2 cache_key rest ttl

/-- `AdvancedCacheManager.set`: `SETEX` the namespaced key with the effective
TTL, then register the tags when a non-empty tag list is given (`if tags:`).
Returns false — keeping any effects already applied — when the backend errors. -/
def set (reach : Bool) (s : RedisState) (key : String) (value : PyVal)
    (ttl : Option Nat) (tags : List String) : Bool × RedisState :=
  if reach then
    let t := effTtl ttl
    let cache_key := generate_key key
    let s1 := s.setEntry cache_key (.str value) t
    if tags = [] then (true, s1)
    else set_tags s1 cache_key tags t
  else (false, s)

/-- `AdvancedCacheManager.delete`: `DEL` the namespaced key, returning whether
anything was removed; false (store untouched) when the backend errors. -/
def delete (reach : Bool) (s : RedisState) (key : String) : Bool × RedisState :=
  if reach then s.delOne (generate_key key)
  else (false, s)

/-- `AdvancedCacheManager.invalidate_by_tag`: read the tag's key-set; when
non-empty, `DEL` every member key, then `DEL` the tag key itself, returning
the member-deletion count; 0 with no effect when the set is empty or the
backend errors. -/
def invalidate_by_tag (reach : Bool) (s : RedisState) (tag : String) :
    Nat × RedisState :=
  if reach then
    match s.smembers (tagKey tag) with
    | .error _ => (0, s)
    | .ok cache_keys =>
      if cache_keys = [] then (0, s)
      else
        let r := s.delKeys cache_keys
        let r2 := r.2.delKeys [tagKey tag]
        (r.1, r2.2)
  else (0, s)

/-- The members currently registered under a tag (empty when the tag key is
absent or not set-typed). -/
def tagMembers (s : RedisState) (tag : String) : List String :=
  match s.lookup (tagKey tag) with
  | some (.sset ms, _) => ms
  | _ => []

/-- True when a key does not hold a string-typed value, so `SADD`/`SMEMBERS`
against it cannot raise `WRONGTYPE`. -/
def notStrTyped (s : RedisState) (k : String) : Bool :=
  match s.lookup k with
  | some (.str _, _) => false
  | _ => true

/-- Store reached after the first tagged write of the C7 scenario:
key `k1`, ttl 100, tag `t`. -/
def c7stateA : RedisState :=
  (set true ⟨[]⟩ "k1" (.vstr "v1") (some 100) ["t"]).2

/-- Store reached after the second tagged write of the C7 scenario:
key `k2`, ttl 10, same tag `t`. -/
def c7stateB : RedisState :=
  (set true c7stateA "k2" (.vstr "v2") (some 10) ["t"]).2

/-- A concrete store with one tagged entry, used by the C2 witness. -/
def c2state : RedisState :=
  ⟨[(generate_key "k1", .str (.vstr "v"), 60),
    (tagKey "t", .sset [generate_key "k1"], 60)]⟩

end AdvancedCacheManager

/-! ## Token validation and auth dependencies
(`app/api/v1/dependencies/auth.py`) -/

/-- A bearer token as the JWT layer observes it.  `sigValid` abstracts
signature verification under the configured secret and algorithm (false also
covers an undecodable token), `expiresAt` the `exp` claim, `subject` the
optional `sub` claim (a decodable payload without a subject has
`subject = none`). -/
structure AccessToken where
  subject : Option String
  expiresAt : Nat
  sigValid : Bool
deriving DecidableEq, Repr

/-- `jose.jwt.decode` (external library, modelled from its documented
behavior): raises `JWTError` on a bad signature or an expiry in the past,
otherwise yields the payload's `sub` claim. -/
def jwtDecode (now : Nat) (tok : AccessToken) : Except Unit (Option String) :=
  if tok.sigValid = false then .error ()
  else if tok.expiresAt < now then .error ()
  else .ok tok.subject

/-- A row of the `users` table
(`app/infrastructure/database/models.py`). -/
structure User where
  id : Nat
  username : String
  email : String
  hashed_password : Option String
  full_name : Option String
  is_active : Bool
  is_superuser : Bool
  oauth_provider : Option String
  oauth_id : Option String
deriving DecidableEq, Repr

/-- The 401 `credentials_exception` raised by `get_current_user`. -/
def credentialsException : HTTPError :=
  ⟨401, "Could not validate credentials", [("WWW-Authenticate", "Bearer")]⟩

/-- The 403 error `HTTPBearer` (external library, `auto_error=True`) raises
when the Authorization header is missing or does not carry a bearer
credential. -/
def notAuthenticatedError : HTTPError := ⟨403, "Not authenticated", []⟩

/-- The 400 error raised by `get_current_active_user` for an inactive
account. -/
def inactiveUserError : HTTPError := ⟨400, "Inactive user", []⟩

/-- The token-checking stage of `get_current_user` (the spec's
`validate(token) -> subject | fails(InvalidToken)`): `jwt.decode`, with both
a `JWTError` and a missing `sub` claim mapped to the 401
`credentials_exception`.  No revocation list is consulted: the result is a
function of the token and the clock alone. -/
def validateToken (now : Nat) (tok : AccessToken) : Except HTTPError String :=
  match jwtDecode now tok with
  | .error _ => .error credentialsException
  | .ok none => .error credentialsException
  | .ok (some username) => .ok username

/-- `get_current_user`: validate the bearer token, then look the user up by
the subject username (`SELECT ... WHERE username = :username` plus
`fetchone`, modelled as the first match); an absent user raises the same 401.
A missing credential never reaches the body: `HTTPBearer` already raised the
403. -/
def get_current_user (now : Nat) (db : List User)
    (credentials : Option AccessToken) : Except HTTPError User :=
  match credentials with
  | none => .error notAuthenticatedError
  | some tok =>
    match validateToken now tok with
    | .error e => .error e
    | .ok username =>
      match db.find? (fun u => u.username == username) with
      | none => .error credentialsException
      | some u => .ok u

/-- `get_current_active_user`: rejects an inactive user with the distinct
400 error. -/
def get_current_active_user (current_user : User) : Except HTTPError User :=
  if current_user.is_active then .ok current_user
  else .error inactiveUserError

/-- `get_current_user_optional`: `None` (anonymous) instead of an error when
no credential is supplied, and also on an invalid token, a missing subject or
a failed lookup. -/
def get_current_user_optional (now : Nat) (db : List User)
    (credentials : Option AccessToken) : Option User :=
  match credentials with
  | none => none
  | some tok =>
    match jwtDecode now tok with
    | .error _ => none
    | .ok none => none
    | .ok (some username) => db.find? (fun u => u.username == username)

/-- A concrete user record for witnesses. -/
def sampleUser : User :=
  ⟨1, "alice", "a@example.com", some "h", none, true, false, none, none⟩

/-- A concrete inactive user record for witnesses. -/
def inactiveUser : User :=
  ⟨2, "bob", "b@example.com", some "h", none, false, false, none, none⟩

/-! ## Registration and login (`app/api/v1/endpoints/auth.py`)

`app.core.security` (password hashing and token creation) is not part of the
sources; those two helpers are modelled from the spec as noted on their
definitions. -/

/-- Modelled from the spec: `get_password_hash` (in `app.core.security`,
missing from the sources) delegates to a cryptographic password-hashing
library; modelled as an injective tagging, which satisfies the contract the
repository's own tests pin down (`hash(p) ≠ p`, `verify(p, hash(p))`,
`¬verify(wrong, hash(p))`). -/
def get_password_hash (password : String) : String := "bcrypt$" ++ password

/-- Modelled from the spec: `verify_password(plain, hashed)` (in
`app.core.security`, missing from the sources) checks the hash against the
password. -/
def verify_password (plain hashed : String) : Bool :=
  hashed == get_password_hash plain

/-- Modelled from the spec (§4.1 `issue`): `create_access_token(subject)`
(in `app.core.security`, missing from the sources) produces a signed token
embedding the subject and an expiry of now plus the configured lifetime. -/
def create_access_token (now lifetime : Nat) (subject : String) : AccessToken :=
  { subject := some subject, expiresAt := now + lifetime, sigValid := true }

/-- The `UserCreate` request schema (validated payload). -/
structure UserCreate where
  username : String
  email : String
  password : String
deriving DecidableEq, Repr

/-- The `UserLogin` request schema. -/
structure UserLogin where
  username : String
  password : String
deriving DecidableEq, Repr

/-- The `Token` response schema. -/
structure Token where
  access_token : AccessToken
  token_type : String
deriving DecidableEq, Repr

/-- The 400 error for a duplicate registration. -/
def alreadyRegisteredError : HTTPError :=
  ⟨400, "Username or email already registered", []⟩

/-- The 401 error for a failed login. -/
def loginError : HTTPError :=
  ⟨401, "Incorrect username or password", [("WWW-Authenticate", "Bearer")]⟩

/-- `POST /register`: reject when a row with the same username or email
already exists (400); otherwise insert the new user — hashed password, column
defaults `is_active=True` and `is_superuser=False`, `id` the autoincrement
surrogate — and return it with the updated table. -/
def register (db : List User) (user_data : UserCreate) :
    Except HTTPError (User × List User) :=
  match db.find? (fun u => u.username == user_data.username ||
      u.email == user_data.email) with
  | some _ => .error alreadyRegisteredError
  | none =>
    let new_user : User :=
      { id := db.length + 1
        username := user_data.username
        email := user_data.email
        hashed_password := some (get_password_hash user_data.password)
        full_name := none
        is_active := true
        is_superuser := false
        oauth_provider := none
        oauth_id := none }
    .ok (new_user, db ++ [new_user])

/-- `POST /login`: look the user up by username; a missing user or a failed
password check yields the 401 (a null hash — an OAuth-only account — cannot
verify); on success return a bearer access token for the username. -/
def login (now lifetime : Nat) (db : List User) (user_data : UserLogin) :
    Except HTTPError Token :=
  match db.find? (fun u => u.username == user_data.username) with
  | none => .error loginError
  | some user =>
    match user.hashed_password with
    | none => .error loginError
    | some hp =>
      if verify_password user_data.password hp then
        .ok ⟨create_access_token now lifetime user.username, "bearer"⟩
      else .error loginError

/-! ## Logging middleware and top-level error handler
(`app/api/middleware/logging.py`, `app/core/exceptions/handlers.py`) -/

namespace LoggingMiddleware

/-- `LoggingMiddleware.dispatch`: a correlation id is generated per request;
when the inner stages return a response it is attached as
`X-Correlation-ID`; when they raise, the middleware logs and re-raises
without producing or annotating any response. -/
def dispatch (correlation_id : String) (inner : Except String Resp) :
    Except String Resp :=
  match inner with
  | .ok response =>
    .ok { response with
           headers := response.headers ++
             [("X-Correlation-ID", correlation_id)] }
  | .error e => .error e

end LoggingMiddleware

/-- `general_exception_handler`: the generic 500 `JSONResponse` — the error
type, generic message and path in the body, and no headers beyond the
response defaults (in particular, no correlation id). -/
def general_exception_handler (path : String) : Resp :=
  ⟨500, [],
   [("type", "InternalServerError"),
    ("message", "An internal server error occurred"),
    ("path", path)]⟩

/-- Starlette's outermost server-error layer carrying the `Exception`
handler registered in `main.py`: a response passes through, an uncaught
exception is converted by `general_exception_handler`. -/
def serverErrorLayer (path : String) (inner : Except String Resp) : Resp :=
  match inner with
  | .ok r => r
  | .error _ => general_exception_handler path

/-- The slice of the `main.py` middleware stack that determines the
correlation id on the outgoing response.  `add_middleware` prepends, so the
server-error layer (holding the `Exception` handler) sits outside the
trusted-host, session, CORS and rate-limit middlewares, which in turn wrap
the logging middleware; none of those intervening layers attaches the
correlation header or converts exceptions (with a deterministic inner
handler, the rate limiter's generic `except` arm re-invokes `call_next` and
the same error re-raises out of it), so the composition relevant to the
header is the server-error layer around the logging stage. -/
def pipelineCorrelation (correlation_id path : String)
    (inner : Except String Resp) : Resp :=
  serverErrorLayer path (LoggingMiddleware.dispatch correlation_id inner)

/-! ## Store lemmas -/

namespace RedisState

theorem find?_filter_ne {β : Type} (l : List (String × β)) (k k2 : String)
    (h : k2 ≠ k) :
    (l.filter (fun e => e.1 != k)).find? (fun e => e.1 == k2) =
      l.find? (fun e => e.1 == k2) := by
  induction l with
  | nil => rfl
  | cons e l ih =>
    rcases eq_or_ne e.1 k with he | he
    · have h1 : (e.1 != k) = false := by simp [he]
      have h2 : (e.1 == k2) = false := by
        simp only [beq_eq_false_iff_ne, ne_eq, he]
        exact fun hh => h hh.symm
      simp [List.filter_cons, h1, List.find?_cons, h2, ih]
    · have h1 : (e.1 != k) = true := by simp [he]
      by_cases h2 : e.1 = k2
      · simp [List.filter_cons, h1, List.find?_cons, h2, h]
      · simp [List.filter_cons, h1, List.find?_cons, h2, ih]

theorem find?_filter_self {β : Type} (l : List (String × β)) (k : String) :
    (l.filter (fun e => e.1 != k)).find? (fun e => e.1 == k) = none := by
  rw [List.find?_eq_none]
  intro e he
  have := (List.mem_filter.mp he).2
  simpa using this

@[simp]
theorem lookup_setEntry_self (s : RedisState) (k : String) (v : RVal) (t : Nat) :
    (s.setEntry k v t).lookup k = some (v, t) := by
  simp [setEntry, lookup, List.find?_cons]

theorem lookup_setEntry_ne (s : RedisState) {k k2 : String} (h : k2 ≠ k)
    (v : RVal) (t : Nat) :
    (s.setEntry k v t).lookup k2 = s.lookup k2 := by
  have h2 : (k == k2) = false := by
    simp only [beq_eq_false_iff_ne, ne_eq]
    exact fun hh => h hh.symm
  simp [setEntry, lookup, List.find?_cons, h2, find?_filter_ne s.entries k k2 h]

@[simp]
theorem lookup_delOne_self (s : RedisState) (k : String) :
    (s.delOne k).2.lookup k = none := by
  unfold delOne
  cases hl : s.lookup k with
  | none => simp [hl]
  | some e => simp [lookup, find?_filter_self]

theorem lookup_delOne_ne (s : RedisState) {k k2 : String} (h : k2 ≠ k) :
    (s.delOne k).2.lookup k2 = s.lookup k2 := by
  unfold delOne
  cases hl : s.lookup k with
  | none => rfl
  | some e => simp [lookup, find?_filter_ne s.entries k k2 h]

theorem delOne_fst (s : RedisState) (k : String) :
    (s.delOne k).1 = (s.lookup k).isSome := by
  unfold delOne
  cases hl : s.lookup k <;> simp [hl]

theorem lookup_delKeys_ne (s : RedisState) (ks : List String) {k : String}
    (h : k ∉ ks) :
    (s.delKeys ks).2.lookup k = s.lookup k := by
  induction ks generalizing s with
  | nil => rfl
  | cons k0 ks ih =>
    have hne : k ≠ k0 := fun hh => h (by rw [hh]; exact List.mem_cons_self k0 ks)
    have hk : k ∉ ks := fun hh => h (List.mem_cons_of_mem _ hh)
    simp [delKeys, ih _ hk, lookup_delOne_ne s hne]

theorem lookup_delKeys_of_none (s : RedisState) (ks : List String) {k : String}
    (h : s.lookup k = none) :
    (s.delKeys ks).2.lookup k = none := by
  induction ks generalizing s with
  | nil => exact h
  | cons k0 ks ih =>
    rcases eq_or_ne k k0 with rfl | hne
    · exact ih _ (lookup_delOne_self s k)
    · exact ih _ ((lookup_delOne_ne s hne).trans h)

theorem lookup_delKeys_mem (s : RedisState) (ks : List String) {k : String}
    (h : k ∈ ks) :
    (s.delKeys ks).2.lookup k = none := by
  induction ks generalizing s with
  | nil => cases h
  | cons k0 ks ih =>
    rcases eq_or_ne k k0 with rfl | hne
    · simp only [delKeys]
      exact lookup_delKeys_of_none _ ks (lookup_delOne_self s k)
    · have hk : k ∈ ks := by
        cases List.mem_cons.mp h with
        | inl hh => exact absurd hh hne
        | inr hh => exact hh
      simp only [delKeys]
      exact ih _ hk

theorem delKeys_count (s : RedisState) (ks : List String) (hnd : ks.Nodup) :
    (s.delKeys ks).1 = (ks.filter (fun k => (s.lookup k).isSome)).length := by
  induction ks generalizing s with
  | nil => rfl
  | cons k0 ks ih =>
    have hk0 : k0 ∉ ks := (List.nodup_cons.mp hnd).1
    have hnd2 : ks.Nodup := (List.nodup_cons.mp hnd).2
    have hsame : ∀ k ∈ ks, ((s.delOne k0).2.lookup k).isSome = (s.lookup k).isSome := by
      intro k hk
      rw [lookup_delOne_ne s (fun hh => hk0 (by rw [← hh]; exact hk))]
    simp only [delKeys, ih _ hnd2, delOne_fst, List.filter_cons]
    rw [List.filter_congr hsame]
    cases hl : (s.lookup k0).isSome <;> simp [Nat.add_comm]

end RedisState

/-! ## Rate-limiter step lemmas -/

/-- Every store the dispatcher can produce: either untouched, or the counter
key overwritten with an incremented count `c + 1` for some previously observed
count `c < limit`, with a 60-second TTL. -/
theorem dispatch_state_cases (limit : Nat) (client_ip path : String)
    (current_minute : Nat) (reach : Bool) (s : RedisState) (call_next : Resp)
    (rct : Nat) :
    (dispatch limit client_ip path current_minute reach s call_next rct).2 = s ∨
      ∃ c, c < limit ∧
        (dispatch limit client_ip path current_minute reach s call_next rct).2 =
          s.setEntry (rateLimitKey client_ip current_minute)
            (.str (.vint (c + 1))) 60 := by
  unfold dispatch
  by_cases hp : path = "/health" ∨ path = "/"
  · simp [hp]
  · simp only [if_neg hp]
    cases hreach : reach with
    | false =>
      have hget : RedisCache.get false s (rateLimitKey client_ip current_minute) =
          none := rfl
      simp only [hget]
      by_cases hl : 0 ≥ limit
      · simp [hl]
      · left
        simp [RedisCache.set, hl]
    | true =>
      cases hv : RedisCache.get true s (rateLimitKey client_ip current_minute) with
      | none =>
        simp only [hv]
        by_cases hl : 0 ≥ limit
        · simp [hl]
        · right
          exact ⟨0, by omega, by simp [RedisCache.set, hl]⟩
      | some v =>
        cases v with
        | vint n =>
          simp only [hv]
          by_cases hl : n ≥ limit
          · simp [hl]
          · right
            exact ⟨n, by omega, by simp [RedisCache.set, hl]⟩
        | vstr str =>
          simp only [hv]
          by_cases hs : str = ""
          · simp only [hs, if_pos rfl]
            by_cases hl : 0 ≥ limit
            · simp [hl]
            · right
              exact ⟨0, by omega, by simp [RedisCache.set, hl]⟩
          · simp [hs]

/-- Admission step when the counter holds an integer `j < limit`: the request
is admitted with the annotated inner response and the counter is rewritten to
`j + 1` with a 60-second TTL. -/
theorem dispatch_admit_present (limit : Nat) (client_ip path : String)
    (current_minute : Nat) (s : RedisState) (call_next : Resp) (rct : Nat)
    (j t : Nat) (hp : ¬(path = "/health" ∨ path = "/"))
    (hl : s.lookup (rateLimitKey client_ip current_minute) =
      some (.str (.vint j), t))
    (hj : j < limit) :
    dispatch limit client_ip path current_minute true s call_next rct =
      (.ok { call_next with
              headers := call_next.headers ++
                rateLimitHeaders limit j current_minute },
       s.setEntry (rateLimitKey client_ip current_minute)
         (.str (.vint (j + 1))) 60) := by
  unfold dispatch
  have hget : RedisCache.get true s (rateLimitKey client_ip current_minute) =
      some (.vint j) := by simp [RedisCache.get, hl]
  simp [if_neg hp, hget, Nat.not_le.mpr hj, RedisCache.set]

/-- Admission step when the counter key is absent and the limit is positive:
the request is admitted and the counter is created at 1. -/
theorem dispatch_admit_absent (limit : Nat) (client_ip path : String)
    (current_minute : Nat) (s : RedisState) (call_next : Resp) (rct : Nat)
    (hp : ¬(path = "/health" ∨ path = "/"))
    (hl : s.lookup (rateLimitKey client_ip current_minute) = none)
    (hlim : 0 < limit) :
    dispatch limit client_ip path current_minute true s call_next rct =
      (.ok { call_next with
              headers := call_next.headers ++
                rateLimitHeaders limit 0 current_minute },
       s.setEntry (rateLimitKey client_ip current_minute)
         (.str (.vint 1)) 60) := by
  unfold dispatch
  have hget : RedisCache.get true s (rateLimitKey client_ip current_minute) =
      none := by simp [RedisCache.get, hl]
  simp [if_neg hp, hget, Nat.not_le.mpr hlim, RedisCache.set]

/-- Rejection step: a counter already at or above the limit produces the 429
error and leaves the store untouched. -/
theorem dispatch_reject (limit : Nat) (client_ip path : String)
    (current_minute : Nat) (s : RedisState) (call_next : Resp) (rct : Nat)
    (j t : Nat) (hp : ¬(path = "/health" ∨ path = "/"))
    (hl : s.lookup (rateLimitKey client_ip current_minute) =
      some (.str (.vint j), t))
    (hj : limit ≤ j) :
    dispatch limit client_ip path current_minute true s call_next rct =
      (.error rateLimitError, s) := by
  unfold dispatch
  have hget : RedisCache.get true s (rateLimitKey client_ip current_minute) =
      some (.vint j) := by simp [RedisCache.get, hl]
  simp [if_neg hp, hget, hj]

/-- Rejection step from an absent counter when the limit is zero. -/
theorem dispatch_reject_absent (limit : Nat) (client_ip path : String)
    (current_minute : Nat) (s : RedisState) (call_next : Resp) (rct : Nat)
    (hp : ¬(path = "/health" ∨ path = "/"))
    (hl : s.lookup (rateLimitKey client_ip current_minute) = none)
    (hlim : limit = 0) :
    dispatch limit client_ip path current_minute true s call_next rct =
      (.error rateLimitError, s) := by
  unfold dispatch
  have hget : RedisCache.get true s (rateLimitKey client_ip current_minute) =
      none := by simp [RedisCache.get, hl]
  simp [if_neg hp, hget, hlim]

/-- The store after `i` sequential requests starting from an absent counter:
still absent when `i = 0`, otherwise the counter holds exactly `i` (for
`i ≤ limit`), with a 60-second TTL. -/
theorem stateAfterRun_spec (limit : Nat) (client_ip path : String)
    (current_minute : Nat) (s : RedisState) (call_next : Resp) (rct : Nat)
    (hp : ¬(path = "/health" ∨ path = "/"))
    (hl : s.lookup (rateLimitKey client_ip current_minute) = none) :
    ∀ i, i ≤ limit →
      (i = 0 ∧ (stateAfterRun limit client_ip path current_minute true call_next
          rct i s).lookup (rateLimitKey client_ip current_minute) = none) ∨
      (1 ≤ i ∧ (stateAfterRun limit client_ip path current_minute true call_next
          rct i s).lookup (rateLimitKey client_ip current_minute) =
            some (.str (.vint i), 60)) := by
  intro i
  induction i with
  | zero => exact fun _ => .inl ⟨rfl, hl⟩
  | succ i ih =>
    intro hle
    right
    refine ⟨Nat.le_add_left 1 i, ?_⟩
    rcases ih (Nat.le_of_succ_le hle) with ⟨hi0, habs⟩ | ⟨hi1, hpres⟩
    · subst hi0
      simp only [stateAfterRun] at habs ⊢
      rw [dispatch_admit_absent limit client_ip path current_minute _ call_next rct
        hp habs (Nat.lt_of_lt_of_le (Nat.zero_lt_succ 0) hle)]
      simp
    · simp only [stateAfterRun]
      rw [dispatch_admit_present limit client_ip path current_minute _ call_next rct
        i 60 hp hpres (Nat.lt_of_succ_le hle)]
      exact RedisState.lookup_setEntry_self _ _ _ _

/-- C1: for every client identity and configured limit N, with a reachable
cache, a non-exempt path and sequential requests within one minute bucket
starting from an absent counter: each of the first N requests is admitted
(with the annotated response), and the (N+1)th is rejected with the 429
rate-limit `HTTPException` carrying the `Retry-After: 60` hint. -/
theorem claim_C1_rate_limit_window (limit : Nat) (client_ip path : String)
    (current_minute : Nat) (s : RedisState) (call_next : Resp) (rct : Nat)
    (hp : ¬(path = "/health" ∨ path = "/"))
    (hl : s.lookup (rateLimitKey client_ip current_minute) = none) :
    (∀ i, i < limit →
      (dispatch limit client_ip path current_minute true
        (stateAfterRun limit client_ip path current_minute true call_next rct i s)
        call_next rct).1 =
      .ok { call_next with
              headers := call_next.headers ++
                rateLimitHeaders limit i current_minute }) ∧
    (dispatch limit client_ip path current_minute true
        (stateAfterRun limit client_ip path current_minute true call_next rct
          limit s) call_next rct).1 = .error rateLimitError ∧
    rateLimitError.status_code = 429 ∧
    ("Retry-After", "60") ∈ rateLimitError.headers := by
  refine ⟨?_, ?_, rfl, by simp [rateLimitError]⟩
  · intro i hi
    rcases stateAfterRun_spec limit client_ip path current_minute s call_next rct
        hp hl i (Nat.le_of_lt hi) with ⟨hi0, habs⟩ | ⟨_, hpres⟩
    · subst hi0
      rw [dispatch_admit_absent limit client_ip path current_minute _ call_next rct
        hp habs hi]
    · rw [dispatch_admit_present limit client_ip path current_minute _ call_next rct
        i 60 hp hpres hi]
  · rcases stateAfterRun_spec limit client_ip path current_minute s call_next rct
        hp hl limit (Nat.le_refl limit) with ⟨hi0, habs⟩ | ⟨_, hpres⟩
    · rw [dispatch_reject_absent limit client_ip path current_minute _ call_next rct
        hp habs hi0]
    · rw [dispatch_reject limit client_ip path current_minute _ call_next rct
        limit 60 hp hpres (Nat.le_refl limit)]

/-- C1 witness: with limit 2 and an empty store, the third request from the
same client in the same minute is rejected with the 429 error. -/
theorem claim_C1_witness :
    (dispatch 2 "1.2.3.4" "/api/x" 0 true
      (stateAfterRun 2 "1.2.3.4" "/api/x" 0 true sampleResp 3600 2 ⟨[]⟩)
      sampleResp 3600).1 = .error rateLimitError :=
  (claim_C1_rate_limit_window 2 "1.2.3.4" "/api/x" 0 ⟨[]⟩ sampleResp 3600
    (by decide) rfl).2.1

/-- Preservation step for C10: one dispatch never pushes the stored counter
above the configured limit. -/
theorem counter_le_step (limit : Nat) (client_ip path : String)
    (current_minute : Nat) (reach : Bool) (s : RedisState) (call_next : Resp)
    (rct : Nat)
    (h : counterValue s (rateLimitKey client_ip current_minute) ≤ limit) :
    counterValue
      (dispatch limit client_ip path current_minute reach s call_next rct).2
      (rateLimitKey client_ip current_minute) ≤ limit := by
  rcases dispatch_state_cases limit client_ip path current_minute reach s
      call_next rct with heq | ⟨c, hc, heq⟩
  · rw [heq]; exact h
  · rw [heq]
    simp only [counterValue, RedisState.lookup_setEntry_self]
    exact hc

/-- C10: the stored per-minute counter never exceeds the configured limit
under sequential requests, and a rejected request leaves the store untouched
(rejected requests consume no quota). -/
theorem claim_C10_counter_bound (limit : Nat) (client_ip path : String)
    (current_minute : Nat) (reach : Bool) (s : RedisState) (call_next : Resp)
    (rct : Nat)
    (h : counterValue s (rateLimitKey client_ip current_minute) ≤ limit) :
    (∀ n, counterValue
        (stateAfterRun limit client_ip path current_minute reach call_next rct
          n s)
        (rateLimitKey client_ip current_minute) ≤ limit) ∧
    (∀ e, (dispatch limit client_ip path current_minute reach s call_next
        rct).1 = .error e →
      (dispatch limit client_ip path current_minute reach s call_next rct).2 =
        s) := by
  constructor
  · intro n
    induction n with
    | zero => exact h
    | succ n ih =>
      exact counter_le_step limit client_ip path current_minute reach _
        call_next rct ih
  · intro e herr
    unfold dispatch at herr ⊢
    by_cases hpth : path = "/health" ∨ path = "/"
    · simp [hpth] at herr
    · simp only [if_neg hpth] at herr ⊢
      rcases hv : RedisCache.get reach s (rateLimitKey client_ip current_minute)
        with _ | v
      · simp only [hv] at herr ⊢
        by_cases hge : 0 ≥ limit
        · simp [hge]
        · simp [hge] at herr
      · cases v with
        | vint n =>
          simp only [hv] at herr ⊢
          by_cases hge : n ≥ limit
          · simp [hge]
          · simp [hge] at herr
        | vstr st =>
          simp only [hv] at herr ⊢
          by_cases hst : st = ""
          · simp only [if_pos hst] at herr ⊢
            by_cases hge : 0 ≥ limit
            · simp [hge]
            · simp [hge] at herr
          · simp [hst] at herr

/-- C10 witness: limit 1, three sequential requests; the counter stays at most
1, and a rejecting dispatch leaves the store unchanged. -/
theorem claim_C10_witness :
    counterValue
      (stateAfterRun 1 "10.0.0.1" "/api/y" 7 true sampleResp 3600 3 ⟨[]⟩)
      (rateLimitKey "10.0.0.1" 7) ≤ 1 :=
  (claim_C10_counter_bound 1 "10.0.0.1" "/api/y" 7 true ⟨[]⟩ sampleResp 3600
    (by decide)).1 3

/-- C5 counterexample: with a configured limit of 0 and an unreachable cache
backend, a non-exempt request is rejected with the 429 error rather than
admitted — the read error degrades to a zero count, and zero is already at the
limit, so the limiter does not fail open as the claim states. -/
theorem claim_C5_counterexample :
    dispatch 0 "1.2.3.4" "/api/x" 0 false ⟨[]⟩ sampleResp 3600 =
      (.error rateLimitError, ⟨[]⟩) := by
  rfl

/-- C5 (amended): exempted paths (health check, root) bypass the limiter
entirely — the inner response is returned untouched and the store is neither
read nor written; and when the cache backend errors on the limiter's read and
write, the request is admitted (fail open) provided the configured limit is
positive: the failed read degrades to a count of zero and the failed write is
ignored. -/
theorem claim_C5_exempt_and_fail_open (limit : Nat) (client_ip path : String)
    (current_minute : Nat) (reach : Bool) (s : RedisState) (call_next : Resp)
    (rct : Nat) :
    ((path = "/health" ∨ path = "/") →
      dispatch limit client_ip path current_minute reach s call_next rct =
        (.ok call_next, s)) ∧
    (¬(path = "/health" ∨ path = "/") → 0 < limit →
      dispatch limit client_ip path current_minute false s call_next rct =
        (.ok { call_next with
                headers := call_next.headers ++
                  rateLimitHeaders limit 0 current_minute },
         s)) := by
  constructor
  · intro hp
    unfold dispatch
    simp [hp]
  · intro hp hlim
    unfold dispatch
    have hget : RedisCache.get false s (rateLimitKey client_ip current_minute) =
        none := rfl
    simp [if_neg hp, hget, Nat.not_le.mpr hlim, RedisCache.set]

/-- C5 witness: the health-check path passes straight through, and a
non-exempt request with an unreachable backend and limit 5 is admitted. -/
theorem claim_C5_witness :
    dispatch 5 "1.2.3.4" "/health" 0 true ⟨[]⟩ sampleResp 3600 =
        (.ok sampleResp, ⟨[]⟩) ∧
      dispatch 5 "1.2.3.4" "/api/x" 0 false ⟨[]⟩ sampleResp 3600 =
        (.ok { sampleResp with
                headers := sampleResp.headers ++ rateLimitHeaders 5 0 0 },
         ⟨[]⟩) :=
  ⟨(claim_C5_exempt_and_fail_open 5 "1.2.3.4" "/health" 0 true ⟨[]⟩ sampleResp
      3600).1 (by decide),
   (claim_C5_exempt_and_fail_open 5 "1.2.3.4" "/api/x" 0 false ⟨[]⟩ sampleResp
      3600).2 (by decide) (by decide)⟩

/-! ## Cache-manager theorems (C2, C6, C7) -/

namespace AdvancedCacheManager

theorem generate_key_ne_tagKey (k t : String) : generate_key k ≠ tagKey t := by
  intro h
  have h2 := congrArg String.data h
  rw [generate_key, tagKey, String.data_append, String.data_append] at h2
  have hs : ("starlight:cache:".data ++ k.data).head? = some 's' := rfl
  rw [h2] at hs
  have ht : ("tag:".data ++ t.data).head? = some 't' := rfl
  rw [ht] at hs
  exact absurd (Option.some.inj hs) (by decide)

theorem tagKey_inj {t1 t2 : String} (h : tagKey t1 = tagKey t2) : t1 = t2 := by
  rw [tagKey, tagKey] at h
  have h2 := congrArg String.data h
  rw [String.data_append, String.data_append] at h2
  exact String.ext (List.append_cancel_left h2)

theorem lookup_expire_ne (s : RedisState) {k k2 : String} (h : k ≠ k2)
    (ttl : Nat) : (s.expire k2 ttl).2.lookup k = s.lookup k := by
  unfold RedisState.expire
  rcases hlk : s.lookup k2 with _ | ⟨v, t⟩
  · rfl
  · simp only [hlk]
    exact RedisState.lookup_setEntry_ne s h v ttl

theorem sadd_ok_lookup_ne {s s1 : RedisState} {k2 m : String}
    (hok : s.sadd k2 m = .ok s1) {k : String} (hk : k ≠ k2) :
    s1.lookup k = s.lookup k := by
  unfold RedisState.sadd at hok
  rcases hlk : s.lookup k2 with _ | ⟨v, t⟩
  · rw [hlk] at hok
    cases hok
    exact RedisState.lookup_setEntry_ne s hk _ _
  · cases v with
    | str pv => rw [hlk] at hok; cases hok
    | sset ms =>
      rw [hlk] at hok
      cases hok
      exact RedisState.lookup_setEntry_ne s hk _ _

/-- `SADD` on a key that is absent or set-typed succeeds, rewriting the key to
a set that contains the new member (TTL untouched on an existing set, 0 —
Redis "no expiry" — on a fresh one). -/
theorem sadd_spec (s : RedisState) (k m : String)
    (hw : notStrTyped s k = true) :
    ∃ ms t0, s.sadd k m = .ok (s.setEntry k (.sset ms) t0) ∧ m ∈ ms := by
  unfold notStrTyped at hw
  unfold RedisState.sadd
  rcases hlk : s.lookup k with _ | ⟨v, t⟩
  · exact ⟨[m], 0, rfl, by simp⟩
  · cases v with
    | str pv => rw [hlk] at hw; cases hw
    | sset ms =>
      refine ⟨if m ∈ ms then ms else ms ++ [m], t, rfl, ?_⟩
      by_cases hmem : m ∈ ms <;> simp [hmem]

/-- `_set_tags` leaves every key that is not one of the processed tag keys
untouched. -/
theorem set_tags_frame (ck : String) (ttl : Nat) :
    ∀ (tags : List String) (s : RedisState) {k : String},
      (∀ t ∈ tags, k ≠ tagKey t) →
      (set_tags s ck tags ttl).2.lookup k = s.lookup k := by
  intro tags
  induction tags with
  | nil => intro s k _; rfl
  | cons tag rest ih =>
    intro s k hk
    have hktag : k ≠ tagKey tag := hk tag (List.mem_cons_self tag rest)
    simp only [set_tags]
    rcases hok : s.sadd (tagKey tag) ck with _ | s1
    · rfl
    · rw [ih _ (fun t ht => hk t (List.mem_cons_of_mem _ ht))]
      rw [lookup_expire_ne _ hktag ttl]
      exact sadd_ok_lookup_ne hok hktag

/-- `_set_tags` on tag keys that are absent or set-typed: the loop completes,
and afterwards every processed tag's key-set contains the cache key and has
its TTL reset to exactly this call's `ttl`. -/
theorem set_tags_spec (ck : String) (ttl : Nat) :
    ∀ (tags : List String) (s : RedisState),
      (∀ t ∈ tags, notStrTyped s (tagKey t) = true) →
      (set_tags s ck tags ttl).1 = true ∧
      ∀ t ∈ tags, ∃ ms,
        (set_tags s ck tags ttl).2.lookup (tagKey t) = some (.sset ms, ttl) ∧
        ck ∈ ms := by
  intro tags
  induction tags with
  | nil => intro s _; exact ⟨rfl, by simp⟩
  | cons tag rest ih =>
    intro s hw
    obtain ⟨ms1, t0, hok, hmem⟩ :=
      sadd_spec s (tagKey tag) ck (hw tag (List.mem_cons_self tag rest))
    have hexp : ((s.setEntry (tagKey tag) (.sset ms1) t0).expire (tagKey tag)
        ttl).2 =
        (s.setEntry (tagKey tag) (.sset ms1) t0).setEntry (tagKey tag)
          (.sset ms1) ttl := by
      unfold RedisState.expire
      rw [RedisState.lookup_setEntry_self]
    set sB := (s.setEntry (tagKey tag) (.sset ms1) t0).setEntry (tagKey tag)
      (.sset ms1) ttl with hsB
    have hBtag : sB.lookup (tagKey tag) = some (.sset ms1, ttl) :=
      RedisState.lookup_setEntry_self _ _ _ _
    have hBother : ∀ k2, k2 ≠ tagKey tag → sB.lookup k2 = s.lookup k2 := by
      intro k2 hne
      rw [hsB, RedisState.lookup_setEntry_ne _ hne,
        RedisState.lookup_setEntry_ne _ hne]
    have hwB : ∀ t ∈ rest, notStrTyped sB (tagKey t) = true := by
      intro t ht
      by_cases hsame : tagKey t = tagKey tag
      · unfold notStrTyped
        rw [hsame, hBtag]
      · unfold notStrTyped
        rw [hBother _ hsame]
        exact hw t (List.mem_cons_of_mem _ ht)
    obtain ⟨hfst, hrest⟩ := ih sB hwB
    have hred : set_tags s ck (tag :: rest) ttl = set_tags sB ck rest ttl := by
      simp only [set_tags, hok, hexp]
    refine ⟨by rw [hred]; exact hfst, ?_⟩
    intro t ht
    rcases List.mem_cons.mp ht with rfl | htr
    · by_cases hin : t ∈ rest
      · rw [hred]; exact hrest t hin
      · refine ⟨ms1, ?_, hmem⟩
        rw [hred]
        rw [set_tags_frame ck ttl rest sB
          (fun t2 ht2 => fun he => hin (by rw [tagKey_inj he]; exact ht2))]
        exact hBtag
    · rw [hred]; exact hrest t htr

/-- C6: with an unreachable backing store, every cache operation degrades
without throwing: `get` returns the caller's default, `set` and `delete`
return false, `invalidate_by_tag` returns 0, and the store is untouched — a
caller cannot distinguish a backend failure from an absent value. -/
theorem claim_C6_degrade_on_failure (s : RedisState) (key : String)
    (default : Option PyVal) (value : PyVal) (ttl : Option Nat)
    (tags : List String) (tag : String) :
    get false s key default = default ∧
    set false s key value ttl tags = (false, s) ∧
    delete false s key = (false, s) ∧
    invalidate_by_tag false s tag = (0, s) :=
  ⟨rfl, rfl, rfl, rfl⟩

/-- C2: with a reachable backend and a well-typed tag key holding distinct
members, `invalidate_by_tag` returns the number of member keys that existed
(0, with no change, for an empty tag), deletes every member key and the tag
key-set itself, and afterwards `get` on any key previously registered under
the tag returns absent. -/
theorem claim_C2_invalidate_by_tag (s : RedisState) (tag : String)
    (hw : notStrTyped s (tagKey tag) = true)
    (hnd : (tagMembers s tag).Nodup) :
    (invalidate_by_tag true s tag).1 =
      ((tagMembers s tag).filter (fun k => (s.lookup k).isSome)).length ∧
    (∀ m ∈ tagMembers s tag, (invalidate_by_tag true s tag).2.lookup m = none) ∧
    (tagMembers s tag ≠ [] →
      (invalidate_by_tag true s tag).2.lookup (tagKey tag) = none) ∧
    (tagMembers s tag = [] → invalidate_by_tag true s tag = (0, s)) ∧
    (∀ key, generate_key key ∈ tagMembers s tag →
      get true (invalidate_by_tag true s tag).2 key none = none) := by
  unfold notStrTyped at hw
  have hms : ∃ ms, s.smembers (tagKey tag) = .ok ms ∧ tagMembers s tag = ms := by
    unfold RedisState.smembers tagMembers
    rcases hlk : s.lookup (tagKey tag) with _ | ⟨v, t⟩
    · exact ⟨[], rfl, rfl⟩
    · cases v with
      | str pv => rw [hlk] at hw; cases hw
      | sset ms => exact ⟨ms, rfl, rfl⟩
  obtain ⟨ms, hsm, htm⟩ := hms
  by_cases hempty : ms = []
  · subst hempty
    have hinv : invalidate_by_tag true s tag = (0, s) := by
      unfold invalidate_by_tag
      rw [hsm]
      rfl
    rw [htm]
    exact ⟨by simp [hinv], by simp, fun h => absurd rfl h, fun _ => hinv,
      by simp⟩
  · have hinv : invalidate_by_tag true s tag =
        ((s.delKeys ms).1, ((s.delKeys ms).2.delKeys [tagKey tag]).2) := by
      unfold invalidate_by_tag
      rw [hsm]
      simp [hempty]
    have hgone : ∀ m ∈ ms,
        (((s.delKeys ms).2.delKeys [tagKey tag]).2).lookup m = none := by
      intro m hm
      exact RedisState.lookup_delKeys_of_none _ _
        (RedisState.lookup_delKeys_mem s ms hm)
    refine ⟨?_, ?_, ?_, ?_, ?_⟩
    · rw [hinv, htm]
      exact RedisState.delKeys_count s ms (htm ▸ hnd)
    · intro m hm
      rw [hinv]
      exact hgone m (htm ▸ hm)
    · intro _
      rw [hinv]
      exact RedisState.lookup_delKeys_mem _ _ (List.mem_singleton_self _)
    · intro h
      rw [htm] at h
      exact absurd h hempty
    · intro key hkey
      rw [hinv]
      unfold get
      rw [if_pos rfl, hgone (generate_key key) (htm ▸ hkey)]

/-- C2 witness: a store holding one entry tagged `t`; invalidating the tag
removes it and a subsequent `get` misses. -/
theorem claim_C2_witness :
    (invalidate_by_tag true c2state "t").1 =
      ((tagMembers c2state "t").filter
        (fun k => (c2state.lookup k).isSome)).length ∧
    (∀ m ∈ tagMembers c2state "t",
      (invalidate_by_tag true c2state "t").2.lookup m = none) ∧
    (tagMembers c2state "t" ≠ [] →
      (invalidate_by_tag true c2state "t").2.lookup (tagKey "t") = none) ∧
    (tagMembers c2state "t" = [] →
      invalidate_by_tag true c2state "t" = (0, c2state)) ∧
    (∀ key, generate_key key ∈ tagMembers c2state "t" →
      get true (invalidate_by_tag true c2state "t").2 key none = none) :=
  claim_C2_invalidate_by_tag c2state "t" (by decide) (by decide)

/-- C7 counterexample: after tagging `k1` with ttl 100 and then `k2` with
ttl 10 under the same tag `t`, the tag key-set's remaining expiry is 10 —
below the 100 seconds still remaining on its longest-lived member `k1` — so
the key-set's expiry is reset by each write, not extended. -/
theorem claim_C7_counterexample :
    c7stateB.lookup (tagKey "t") =
        some (.sset [generate_key "k1", generate_key "k2"], 10) ∧
      c7stateB.lookup (generate_key "k1") = some (.str (.vstr "v1"), 100) ∧
      (10 : Nat) < 100 := by
  refine ⟨?_, ?_, by decide⟩ <;> rfl

/-- C7 (amended): `set(key, value, ttl, tags)` with a reachable backend and
well-typed tag keys succeeds, and each named tag's key-set gains the
namespaced key as a member while its expiry is reset to exactly this call's
effective ttl (not extended: a shorter ttl overwrites a longer remaining
expiry, as the counterexample shows). -/
theorem claim_C7_tag_registration (s : RedisState) (key : String)
    (value : PyVal) (ttl : Option Nat) (tags : List String)
    (hw : ∀ t ∈ tags, notStrTyped s (tagKey t) = true) :
    (set true s key value ttl tags).1 = true ∧
    ∀ t ∈ tags, ∃ ms,
      (set true s key value ttl tags).2.lookup (tagKey t) =
        some (.sset ms, effTtl ttl) ∧ generate_key key ∈ ms := by
  unfold set
  rw [if_pos rfl]
  by_cases hempty : tags = []
  · subst hempty
    exact ⟨rfl, by simp⟩
  · simp only [if_neg hempty]
    have hw1 : ∀ t ∈ tags, notStrTyped
        (s.setEntry (generate_key key) (.str value) (effTtl ttl))
        (tagKey t) = true := by
      intro t ht
      unfold notStrTyped
      rw [RedisState.lookup_setEntry_ne s
        (fun he => generate_key_ne_tagKey key t he.symm)]
      exact hw t ht
    exact set_tags_spec (generate_key key) (effTtl ttl) tags _ hw1

/-- C7 witness for the amended claim: one tagged write into an empty store
registers the key under the tag with the call's ttl. -/
theorem claim_C7_witness :
    (set true ⟨[]⟩ "k" (.vstr "v") (some 60) ["t1"]).1 = true ∧
    ∀ t ∈ ["t1"], ∃ ms,
      (set true ⟨[]⟩ "k" (.vstr "v") (some 60) ["t1"]).2.lookup (tagKey t) =
        some (.sset ms, effTtl (some 60)) ∧ generate_key "k" ∈ ms :=
  claim_C7_tag_registration ⟨[]⟩ "k" (.vstr "v") (some 60) ["t1"] (by decide)

end AdvancedCacheManager

/-! ## Auth theorems (C3, C4) -/

/-- C3: token validation succeeds exactly on a token with a valid signature,
an expiry not in the past and a present subject claim, yielding that subject;
in every other case — bad signature, malformed (subject-less) payload or
past expiry — it fails with the single invalid-token error, and no
revocation list is consulted (`validateToken` depends on the token and clock
alone). -/
theorem claim_C3_validate_token (now : Nat) (tok : AccessToken) :
    (∀ s, validateToken now tok = .ok s ↔
      (tok.sigValid = true ∧ ¬ tok.expiresAt < now ∧ tok.subject = some s)) ∧
    (validateToken now tok = .error credentialsException ↔
      (tok.sigValid = false ∨ tok.expiresAt < now ∨ tok.subject = none)) := by
  cases hsig : tok.sigValid <;>
    by_cases hexp : tok.expiresAt < now <;>
      cases hsub : tok.subject <;>
        simp [validateToken, jwtDecode, hsig, hexp, hsub]

/-- C3 holds with no hypotheses, but exercise it at a concrete token: a
valid, unexpired token with subject `alice` validates to `alice`. -/
theorem claim_C3_witness :
    validateToken 10 ⟨some "alice", 20, true⟩ = .ok "alice" :=
  ((claim_C3_validate_token 10 ⟨some "alice", 20, true⟩).1 "alice").mpr
    (by simp)

/-- C4: the resolver returns a user record exactly when a bearer credential
is present, the token validates, and a user with the token's subject exists
(the first matching row); every failure is one of the two
unauthenticated-class errors (403 missing credential, 401 otherwise); the
optional variant returns anonymous (`None`) on a missing credential instead
of failing; and the active-user checkpoint passes an active user through and
rejects an inactive one with the distinct 400 `InactiveAccount` signal. -/
theorem claim_C4_auth_resolver (now : Nat) (db : List User)
    (credentials : Option AccessToken) (u : User) :
    (get_current_user now db credentials = .ok u ↔
      ∃ tok s, credentials = some tok ∧ validateToken now tok = .ok s ∧
        db.find? (fun x => x.username == s) = some u) ∧
    (∀ e, get_current_user now db credentials = .error e →
      (e = notAuthenticatedError ∨ e = credentialsException)) ∧
    (get_current_user_optional now db none = none) ∧
    (get_current_active_user u =
      if u.is_active then .ok u else .error inactiveUserError) ∧
    inactiveUserError ≠ credentialsException ∧
    inactiveUserError ≠ notAuthenticatedError := by
  refine ⟨?_, ?_, rfl, rfl, by decide, by decide⟩
  · cases credentials with
    | none => simp [get_current_user]
    | some tok =>
      cases hval : validateToken now tok with
      | error e => simp [get_current_user, hval]
      | ok username =>
        cases hfind : db.find? (fun x => x.username == username) with
        | none =>
          simp only [get_current_user, hval, hfind]
          constructor
          · intro h; cases h
          · rintro ⟨tok2, s2, heq, hval2, hfind2⟩
            cases heq
            rw [hval] at hval2
            cases hval2
            rw [hfind] at hfind2
            cases hfind2
        | some u2 =>
          simp only [get_current_user, hval, hfind]
          constructor
          · intro h
            cases h
            exact ⟨tok, username, rfl, hval, hfind⟩
          · rintro ⟨tok2, s2, heq, hval2, hfind2⟩
            cases heq
            rw [hval] at hval2
            cases hval2
            rw [hfind] at hfind2
            cases hfind2
            rfl
  · intro e
    cases credentials with
    | none =>
      intro h
      simp only [get_current_user] at h
      cases h
      exact .inl rfl
    | some tok =>
      cases hval : validateToken now tok with
      | error e2 =>
        intro h
        simp only [get_current_user, hval] at h
        cases h
        right
        rcases (claim_C3_validate_token now tok) with ⟨hok, herr⟩
        by_contra hne
        -- every error from validateToken is the credentials exception
        cases he2 : jwtDecode now tok with
        | error u3 =>
          rw [validateToken, he2] at hval
          cases hval
          exact hne rfl
        | ok sub =>
          cases sub with
          | none =>
            rw [validateToken, he2] at hval
            cases hval
            exact hne rfl
          | some s3 =>
            rw [validateToken, he2] at hval
            cases hval
      | ok username =>
        cases hfind : db.find? (fun x => x.username == username) with
        | none =>
          intro h
          simp only [get_current_user, hval, hfind] at h
          cases h
          exact .inr rfl
        | some u2 =>
          intro h
          simp only [get_current_user, hval, hfind] at h
          cases h

/-- C4 witness: a request with no credential fails with the 403
unauthenticated-class error, and the inactive checkpoint rejects an inactive
user. -/
theorem claim_C4_witness :
    (notAuthenticatedError = notAuthenticatedError ∨
      notAuthenticatedError = credentialsException) ∧
    get_current_active_user inactiveUser =
      (if inactiveUser.is_active then .ok inactiveUser
       else .error inactiveUserError) :=
  ⟨(claim_C4_auth_resolver 0 [] none sampleUser).2.1 notAuthenticatedError rfl,
   (claim_C4_auth_resolver 0 [] none inactiveUser).2.2.2.1⟩

/-! ## Registration/login theorem (C9) -/

theorem find?_append_of_none {α : Type} (l1 l2 : List α) (p : α → Bool)
    (h : l1.find? p = none) : (l1 ++ l2).find? p = l2.find? p := by
  induction l1 with
  | nil => rfl
  | cons a l1 ih =>
    rcases hp : p a with _ | _
    · rw [List.find?_cons_of_neg _ (by simp [hp])] at h
      rw [List.cons_append, List.find?_cons_of_neg _ (by simp [hp])]
      exact ih h
    · rw [List.find?_cons_of_pos _ hp] at h
      cases h

/-- C9: for a valid registration payload whose username and email are taken
by no existing row, registration succeeds — inserting a user carrying the
payload's username and email — and a subsequent login with the same username
and password succeeds, returning a bearer access token for that subject. -/
theorem claim_C9_register_then_login (now lifetime : Nat) (db : List User)
    (user_data : UserCreate)
    (hfresh : ∀ u ∈ db, u.username ≠ user_data.username ∧
      u.email ≠ user_data.email) :
    ∃ nu db2, register db user_data = .ok (nu, db2) ∧
      nu.username = user_data.username ∧ nu.email = user_data.email ∧
      login now lifetime db2 ⟨user_data.username, user_data.password⟩ =
        .ok ⟨create_access_token now lifetime user_data.username, "bearer"⟩ := by
  have hnone : db.find? (fun u => u.username == user_data.username ||
      u.email == user_data.email) = none := by
    rw [List.find?_eq_none]
    intro u hu
    have := hfresh u hu
    simp [this.1, this.2]
  have hnone2 : db.find? (fun u => u.username == user_data.username) = none := by
    rw [List.find?_eq_none]
    intro u hu
    simp [(hfresh u hu).1]
  refine ⟨_, _, by rw [register, hnone], rfl, rfl, ?_⟩
  rw [login, find?_append_of_none _ _ _ hnone2,
    List.find?_cons_of_pos _ (by simp)]
  simp [verify_password]

/-- C9 witness: registering `alice` into an empty table and logging in with
the same credentials yields a bearer token. -/
theorem claim_C9_witness :
    ∃ nu db2,
      register [] ⟨"alice", "a@example.com", "Secret123!"⟩ = .ok (nu, db2) ∧
      nu.username = "alice" ∧ nu.email = "a@example.com" ∧
      login 0 900 db2 ⟨"alice", "Secret123!"⟩ =
        .ok ⟨create_access_token 0 900 "alice", "bearer"⟩ :=
  claim_C9_register_then_login 0 900 []
    ⟨"alice", "a@example.com", "Secret123!"⟩ (by decide)

/-! ## Correlation-id theorems (C8) -/

/-- C8 counterexample: when the inner stages raise an uncaught error, the
outgoing response is the generic 500 built by the top-level handler and
carries no `X-Correlation-ID` header — the logging middleware re-raised
without annotating, and the handler runs outside it — so the correlation id
is not attached on the failure path. -/
theorem claim_C8_counterexample :
    (pipelineCorrelation "cid-1" "/boom" (.error "boom")).status_code = 500 ∧
    ((pipelineCorrelation "cid-1" "/boom" (.error "boom")).headers.all
      (fun h => h.1 != "X-Correlation-ID")) = true := by
  decide

/-- C8 (amended): the correlation id generated at the logging stage is
attached (as `X-Correlation-ID`) to every success response; when an uncaught
error reaches the top-level handler, the handler's generic 500 response is
returned instead and carries no correlation id. -/
theorem claim_C8_correlation_id (correlation_id path : String) (r : Resp)
    (e : String) :
    (pipelineCorrelation correlation_id path (.ok r) =
      { r with headers := r.headers ++
          [("X-Correlation-ID", correlation_id)] }) ∧
    (pipelineCorrelation correlation_id path (.error e) =
      general_exception_handler path) ∧
    (general_exception_handler path).status_code = 500 ∧
    (∀ v, ("X-Correlation-ID", v) ∉ (general_exception_handler path).headers) :=
  ⟨rfl, rfl, rfl, by simp [general_exception_handler]⟩

end Starlight
